import Mathlib

/-!
Shallow embedding of the academic-mcp PDF pipeline: the class PDFUtils of
src/pdf-utils.ts together with the read_pdf_text and cleanup_downloads tool
handlers of the server file. JavaScript strings are modelled as Lean strings
over their character lists (every input of interest is ASCII, where UTF-16
length and character count agree); the external collaborators — the axios
fetch, the WHATWG URL parser and decodeURIComponent, the arXiv search and
the pdftotext invocation — are passed in as explicit environment records,
and each invocation of one is counted or recorded so that the temporal and
resource claims are statable.
-/

/-- Leading-match test on character lists: the second list is an initial run
of the first. -/
def leadMatch : List Char → List Char → Bool
  | _, [] => true
  | [], _ :: _ => false
  | c :: cs, d :: ds => c == d && leadMatch cs ds

/-- JavaScript String.prototype.includes: the second list occurs contiguously
inside the first (an empty pattern always occurs). -/
def hasSub : List Char → List Char → Bool
  | [], pat => leadMatch [] pat
  | c :: rest, pat => leadMatch (c :: rest) pat || hasSub rest pat

/-- JavaScript url.includes(sub) on Lean strings. -/
def strIncludes (s sub : String) : Bool := hasSub s.toList sub.toList

/-- JavaScript s.split(sep) for a one-character separator: the result always
has at least one piece, and empty pieces are kept. -/
def splitOnChar (sep : Char) : List Char → List (List Char)
  | [] => [[]]
  | c :: rest =>
    match splitOnChar sep rest with
    | [] => [[]]
    | h :: t => if c == sep then [] :: h :: t else (c :: h) :: t

/-- urlParts[urlParts.length - 1]: the last piece of a split. -/
def jsLast (l : List (List Char)) : List Char := l.getLastD []

/-- The final path segment used by downloadPDF and extractTitleFromUrl:
pdfUrl.split(slash) and then the last element (the query string, when one is
present, stays inside this segment). -/
def lastPathSegment (url : String) : List Char := jsLast (splitOnChar '/' url.toList)

def pdfExt : List Char := ['.', 'p', 'd', 'f']

/-- JavaScript replace of the end-anchored regex for ".pdf": drop a trailing
".pdf" when present. -/
def dropPdfAtEnd (s : List Char) : List Char :=
  if leadMatch s.reverse pdfExt.reverse then s.take (s.length - 4) else s

/-- JavaScript baseFilename.replace(".pdf", ""): only the first occurrence of
".pdf" is removed, wherever it sits. -/
def removeFirstPdf : List Char → List Char
  | [] => []
  | c :: rest =>
    if leadMatch (c :: rest) pdfExt then rest.drop 3 else c :: removeFirstPdf rest

/-- JavaScript replace of the global character class underscore-or-dash with
a space. -/
def dashUnderToSpace (s : List Char) : List Char :=
  s.map (fun c => if c == '_' || c == '-' then ' ' else c)

/-- One character of the sanitizer: everything outside [A-Za-z0-9._-] becomes
an underscore. -/
def sanitizeChar (c : Char) : Char :=
  if c.isAlphanum || c == '.' || c == '_' || c == '-' then c else '_'

/-- filename.replace of the global negated class, as in downloadPDF. -/
def sanitizeFilename (s : String) : String := String.mk (s.toList.map sanitizeChar)

def arxivPat : List Char := ['a', 'r', 'x', 'i', 'v', '.', 'o', 'r', 'g', '/', 'p', 'd', 'f', '/']

/-- The regex capture of pdfUrl.match over the arXiv pdf pattern: scan left to
right for the pattern followed by at least one non-slash character, exactly as
a regex engine retries at the next position when the one-or-more group is
empty. -/
def arxivIdScan : List Char → Option (List Char)
  | [] => none
  | c :: rest =>
    if leadMatch (c :: rest) arxivPat then
      match ((c :: rest).drop arxivPat.length).takeWhile (fun d => d != '/') with
      | [] => arxivIdScan rest
      | d :: ds => some (d :: ds)
    else arxivIdScan rest

/-- The id segment downloadPDF extracts from an arXiv URL, with the literal
fallback "unknown" when the pattern does not match. -/
def arxivIdOf (url : String) : String :=
  match arxivIdScan url.toList with
  | some l => String.mk l
  | none => "unknown"

/-- The fixed domain list of PDFUtils.isPaywalledSource. -/
def paywalledDomains : List String :=
  ["scholar.google.com", "sciencedirect.com", "ieee.org", "acm.org", "springer.com",
   "wiley.com", "tandfonline.com", "sagepub.com", "taylorfrancis.com", "emerald.com",
   "jstor.org"]

/-- PDFUtils.isPaywalledSource: some fixed domain occurs as a substring of
the URL. -/
def isPaywalledSource (url : String) : Bool :=
  paywalledDomains.any (fun d => strIncludes url d)

/-- External URL-library behavior consumed by extractTitleFromUrl: parseOk
models whether new URL(url) succeeds, getParam models searchParams.get (none
for an absent parameter), decode models decodeURIComponent (modelled total;
no claim turns on a malformed escape sequence). -/
structure UrlLib where
  parseOk : String → Bool
  getParam : String → String → Option String
  decode : String → String

/-- searchParams.get of title, q and query chained with JavaScript truthiness:
the first of the three values that is present and nonempty (a null or empty
value falls through to the next). -/
def jsOrParams (lib : UrlLib) (url : String) : Option String :=
  let pick := fun (name : String) =>
    match lib.getParam url name with
    | some v => if v == "" then none else some v
    | none => none
  match pick "title" with
  | some v => some v
  | none =>
    match pick "q" with
    | some v => some v
    | none => pick "query"

/-- The cleaned filename candidate of extractTitleFromUrl: strip a trailing
".pdf", then turn underscores and dashes into spaces. -/
def cleanFilenameOf (f : String) : String :=
  String.mk (dashUnderToSpace (dropPdfAtEnd f.toList))

/-- The part of PDFUtils.extractTitleFromUrl after the filename candidate:
query parameters (inside the try block guarded by URL parsing), then the
final path segment with its length-over-10 and no-period tests. -/
def extractTitleRest (lib : UrlLib) (url : String) : Option String :=
  match (if lib.parseOk url then jsOrParams lib url else none) with
  | some v => some (lib.decode v)
  | none =>
    let lastPart := lastPathSegment url
    if !lastPart.isEmpty && decide (10 < lastPart.length) && !lastPart.contains '.' then
      some (String.mk (dashUnderToSpace lastPart))
    else none

/-- PDFUtils.extractTitleFromUrl: the filename candidate is accepted when its
cleaned form is longer than 10 characters; otherwise the URL candidates of
extractTitleRest are tried. -/
def extractTitleFromUrl (lib : UrlLib) (url : String) (filename : Option String) : Option String :=
  match filename with
  | some f =>
    let clean := cleanFilenameOf f
    if 10 < clean.length then some clean else extractTitleRest lib url
  | none => extractTitleRest lib url

/-- Filename derivation of PDFUtils.downloadPDF on a successful fetch when no
name reaches it from the caller; the argument now models Date.now(). The
arXiv and scholar tests are applied to the final path segment of the URL,
exactly as the source tests baseFilename.includes. -/
def deriveFilename (now : Nat) (pdfUrl : String) (filename : Option String) : String :=
  let name :=
    match filename with
    | some f => f
    | none =>
      let base := lastPathSegment pdfUrl
      if hasSub base "arxiv.org".toList then "arxiv_" ++ arxivIdOf pdfUrl
      else if hasSub base "scholar.google".toList then "scholar_" ++ toString now
      else
        let b := removeFirstPdf base
        if b.isEmpty then "paper_" ++ toString now else String.mk b
  let withExt := if leadMatch name.toList.reverse pdfExt.reverse then name else name ++ ".pdf"
  sanitizeFilename withExt

/-- Environment of one acquisition: fetch models the axios GET (the error
carries the thrown message), resolve models findPaperOnArxiv as a whole (none
covers both an empty search and its internally caught errors — the method
never throws), lib the URL library and now the clock behind Date.now(). -/
structure AcqEnv where
  fetch : String → Except String Unit
  resolve : String → Option String
  lib : UrlLib
  now : Nat

/-- Outcome of downloadPDF together with how many times each external
collaborator was invoked along the whole recursion: fetches counts axios
GETs, resolves counts findPaperOnArxiv calls, titleInfers counts
extractTitleFromUrl calls. -/
structure AcqResult where
  outcome : Except String String
  fetches : Nat
  resolves : Nat
  titleInfers : Nat

/-- The wrapper thrown at the end of the downloadPDF catch block. -/
def wrapDownloadError (msg : String) : String := "Failed to download PDF: " ++ msg

/-- PDFUtils.downloadPDF with fuel for the recursion into a substitute URL
(none means the recursion was still running when the fuel ran out). On a
failed fetch the paywall judgment gates the fallback; a failed or empty
fallback falls through to the throw that wraps the original message, because
the inner catch swallows the recursive error. -/
def downloadPDF (env : AcqEnv) : Nat → String → Option String → Option AcqResult
  | 0, _, _ => none
  | fuel + 1, url, filename =>
    match env.fetch url with
    | .ok _ => some ⟨.ok (deriveFilename env.now url filename), 1, 0, 0⟩
    | .error msg =>
      if isPaywalledSource url then
        match extractTitleFromUrl env.lib url filename with
        | some title =>
          match env.resolve title with
          | some arxivPdfUrl =>
            match downloadPDF env fuel arxivPdfUrl filename with
            | none => none
            | some inner =>
              match inner.outcome with
              | .ok fp =>
                some ⟨.ok fp, inner.fetches + 1, inner.resolves + 1, inner.titleInfers + 1⟩
              | .error _ =>
                some ⟨.error (wrapDownloadError msg),
                  inner.fetches + 1, inner.resolves + 1, inner.titleInfers + 1⟩
          | none => some ⟨.error (wrapDownloadError msg), 1, 1, 1⟩
        | none => some ⟨.error (wrapDownloadError msg), 1, 0, 1⟩
      else some ⟨.error (wrapDownloadError msg), 1, 0, 0⟩

/-- Environment of PDFUtils.readPDFText: fileExists models fs.existsSync on
the filepath, run the execAsync invocation of pdftotext over the page window
actually written into the command line (error means the child process
failed). -/
structure ExtractEnv where
  fileExists : Bool
  run : Option Nat × Option Nat → Except Unit String

/-- The page window readPDFText writes into the pdftotext command: with no
start page the command has no page flags at all (a lone end page is ignored),
so (none, none) extracts the full document; with a start page and no end page
the command carries only the first-page flag, extracting to the document
end. -/
def pdftotextWindow (startPage endPage : Option Nat) : Option Nat × Option Nat :=
  match startPage with
  | none => (none, none)
  | some s => (some s, endPage)

/-- The placeholder string readPDFText returns instead of raising when the
extraction tool errors. -/
def extractionUnavailableText : String :=
  "PDF text extraction failed. Please ensure pdftotext is installed (brew install poppler on macOS)."

/-- What one readPDFText call produced: its result, and the page window it
passed to the extraction tool (none when the tool was never invoked). -/
structure ReadOutcome where
  result : Except String String
  window : Option (Option Nat × Option Nat)

/-- PDFUtils.readPDFText: a missing file throws (wrapped by the outer catch
into the failed-to-read message); an erroring extraction tool degrades to the
placeholder text instead of raising. -/
def readPDFText (env : ExtractEnv) (filepath : String) (startPage endPage : Option Nat) :
    ReadOutcome :=
  if env.fileExists then
    match env.run (pdftotextWindow startPage endPage) with
    | .ok t => ⟨.ok t, some (pdftotextWindow startPage endPage)⟩
    | .error _ => ⟨.ok extractionUnavailableText, some (pdftotextWindow startPage endPage)⟩
  else ⟨.error ("Failed to read PDF: PDF file not found: " ++ filepath), none⟩

/-- The page windows of the readPDFTextChunked loop: for startPage from 1
while startPage is at most totalPages, stepping by the chunk size, one window
from startPage to min (startPage + chunkSize - 1) totalPages. The positivity
conjunct on the chunk size only renders the termination of the source loop,
whose callers guarantee a positive chunk size (the handler's loop guard is
currentChunkSize over 0). -/
def chunkRangesAux (c tp startPage : Nat) : List (Nat × Nat) :=
  if _h : 0 < c ∧ startPage ≤ tp then
    (startPage, min (startPage + c - 1) tp) :: chunkRangesAux c tp (startPage + c)
  else []
termination_by tp + 1 - startPage
decreasing_by omega

/-- The full window list of one readPDFTextChunked call. -/
def chunkRanges (c tp : Nat) : List (Nat × Nat) := chunkRangesAux c tp 1

/-- The startPage and endPage fields the read_pdf_text handler writes into
its response: chunk index i is mapped to startPage i * c + 1 and endPage
min ((i + 1) * c) totalPages, one entry per chunk the loop produced. -/
def handlerChunkBounds (c tp : Nat) : List (Nat × Nat) :=
  (List.range (chunkRanges c tp).length).map (fun i => (i * c + 1, min ((i + 1) * c) tp))

/-- Environment of one chunked read_pdf_text call: attempt k models one
readPDFTextChunked call at chunk size k followed by serializing the response,
giving the character count of the serialized response, or none when the
extraction threw; pageOne models the text readPDFText yields for the window
from page 1 to page 1 in the fallback. -/
structure ChunkReadEnv where
  attempt : Nat → Option Nat
  pageOne : List Char

/-- What a chunked read_pdf_text call returned: the chunked response at some
chunk size, or the single-page fallback with its text and truncated flag. -/
inductive ChunkedOutcome where
  | plan (chunkSize : Nat)
  | fallbackPage (text : List Char) (truncated : Bool)
deriving DecidableEq

/-- The budget test of the handler: estimatedTokens = length / 4 compared
with maxTokens = 15000, which over the exactly-represented quarters of
JavaScript numbers holds precisely when the length is at most 60000. -/
def fitsBudget (len : Nat) : Bool := len ≤ 60000

/-- The halving step of the handler: Math.max(1, Math.floor(c / 2)). -/
def chunkedNext (c : Int) : Int := max 1 (c / 2)

/-- The while loop of the chunked read_pdf_text handler, with fuel counting
loop iterations (none means the loop was still running when the fuel ran
out). An in-budget attempt returns the plan; an over-budget or erroring
attempt halves the chunk size; leaving the loop runs the single-page
fallback, whose text is page one truncated by substring(0, 80000) and whose
truncated flag is the comparison of the text length with 80000. -/
def readPdfTextChunkedLoop (env : ChunkReadEnv) : Nat → Int → Option ChunkedOutcome
  | 0, _ => none
  | fuel + 1, c =>
    if 0 < c then
      match env.attempt c.toNat with
      | some len =>
        if fitsBudget len then some (.plan c.toNat)
        else readPdfTextChunkedLoop env fuel (chunkedNext c)
      | none => readPdfTextChunkedLoop env fuel (chunkedNext c)
    else
      some (.fallbackPage (env.pageOne.take 80000) (decide (80000 < env.pageOne.length)))

/-- The chunked branch of the read_pdf_text handler: the working chunk size
starts at min (requested, 2) and the loop runs from there. -/
def readPdfTextChunked (env : ChunkReadEnv) (fuel : Nat) (chunkSize : Int) :
    Option ChunkedOutcome :=
  readPdfTextChunkedLoop env fuel (min chunkSize 2)

/-- The forEach-unlink loop of cleanupDownloads: delete each listed file from
the directory, in order. -/
def unlinkAll (files : List String) (dir : List String) : List String :=
  files.foldl (fun d f => d.filter (fun g => g != f)) dir

/-- PDFUtils.cleanupDownloads over a directory state: it reads the file list,
unlinks every file, and logs the length of that list to the console; the pair
is the directory afterwards and the logged count. -/
def cleanupDownloads (dir : List String) : List String × Nat := (unlinkAll dir dir, dir.length)

/-- PDFUtils.listDownloadedPDFs: the directory entries ending in ".pdf". -/
def listDownloadedPDFs (dir : List String) : List String :=
  dir.filter (fun f => leadMatch f.toList.reverse pdfExt.reverse)

/-- The JSON object the cleanup_downloads handler serializes: an action field
and a message field. -/
structure CleanupResponse where
  action : String
  message : String
deriving DecidableEq

/-- The response of the cleanup_downloads tool handler: a fixed action and a
fixed message, independent of the directory contents. -/
def cleanupHandlerResponse (_dir : List String) : CleanupResponse :=
  ⟨"cleanup_downloads", "All downloaded PDFs have been cleaned up"⟩

/-- The contiguous-partition check behind the chunk-plan invariant, read as:
the first window starts at s, every window is nonempty and is followed either
by nothing — in which case it ends exactly at tp — or by windows covering
from its end plus one. -/
def coversFrom : Nat → Nat → List (Nat × Nat) → Bool
  | _, _, [] => false
  | s, tp, [(a, b)] => a == s && decide (a ≤ b) && b == tp
  | s, tp, (a, b) :: q :: rest =>
    a == s && decide (a ≤ b) && decide (b < tp) && coversFrom (b + 1) tp (q :: rest)

/-- The multiset of pages a window list covers, in order: each pair (a, b)
contributes a, a + 1, ..., b. -/
def pagesOf (l : List (Nat × Nat)) : List Nat :=
  l.flatMap (fun p => List.range' p.1 (p.2 + 1 - p.1))

/-- An extraction environment in which every attempt, at every chunk size,
serializes to 70000 characters — over the 60000-character (15000-token)
budget — with an empty first page. -/
def overBudgetEnv : ChunkReadEnv := ⟨fun _ => some 70000, []⟩

/-- An extraction environment over budget at every chunk size whose first
page holds 100000 characters, so that the single-page fallback, were it
reached, would truncate. -/
def overBudgetEnvBig : ChunkReadEnv := ⟨fun _ => some 70000, List.replicate 100000 'a'⟩

/-- A one-character-page environment used to instantiate the nonpositive
chunk size claim. -/
def fallbackWitnessEnv : ChunkReadEnv := ⟨fun _ => none, ['a']⟩

/-- An acquisition environment whose fetch always fails, against a URL that
matches no paywalled domain. -/
def nonPaywalledEnv : AcqEnv :=
  ⟨fun _ => .error "HTTP 404", fun _ => none, ⟨fun _ => false, fun _ _ => none, id⟩, 0⟩

/-- An acquisition environment in which the resolver answers the first
inferred title with a second paywalled URL and the second title with a free
URL whose fetch succeeds, driving downloadPDF through two levels of
fallback. -/
def chainedResolveEnv : AcqEnv :=
  ⟨fun u => if u = "https://example.org/free-copy" then .ok () else .error "HTTP 403",
   fun t => if t = "first hop title alpha" then some "https://www.ieee.org/second-hop-title-beta"
            else if t = "second hop title beta" then some "https://example.org/free-copy" else none,
   ⟨fun _ => true, fun _ _ => none, id⟩, 0⟩

/-- An acquisition environment whose resolver always answers with an arXiv
URL (matching no paywalled domain) whose fetch succeeds. -/
def boundedResolveEnv : AcqEnv :=
  ⟨fun u => if u = "https://arxiv.org/pdf/1234.5678" then .ok () else .error "HTTP 403",
   fun _ => some "https://arxiv.org/pdf/1234.5678", ⟨fun _ => true, fun _ _ => none, id⟩, 0⟩

/-- A URL library whose parsed query carries q=ab, a two-character title
candidate. -/
def shortQueryLib : UrlLib :=
  ⟨fun _ => true, fun _ name => if name = "q" then some "ab" else none, id⟩

/-- Title inference as the amended claim states it: candidates in priority
order — the caller filename, then the query parameters, then the final path
segment — where the filename candidate is accepted when its cleaned form
exceeds 10 characters, a query-parameter candidate is accepted whenever
present and nonempty (no length threshold), and the path-segment candidate
is accepted only when it is nonempty, longer than 10 characters and free of
periods; the first accepted candidate wins, else there is no title. -/
def extractTitleSpec (lib : UrlLib) (url : String) (filename : Option String) : Option String :=
  let fileCand : Option String :=
    filename.bind (fun f =>
      if 10 < (cleanFilenameOf f).length then some (cleanFilenameOf f) else none)
  let queryCand : Option String :=
    if lib.parseOk url then (jsOrParams lib url).map (fun v => lib.decode v) else none
  let pathCand : Option String :=
    let lp := lastPathSegment url
    if !lp.isEmpty && decide (10 < lp.length) && !lp.contains '.' then
      some (String.mk (dashUnderToSpace lp))
    else none
  (fileCand.orElse (fun _ => queryCand)).orElse (fun _ => pathCand)

/-- Helper: appending two adjacent ranges of consecutive naturals. -/
lemma range'_app (s m n : Nat) :
    List.range' s m ++ List.range' (s + m) n = List.range' s (m + n) := by
  rw [List.range'_append_1, Nat.add_comm]

/-- Helper: a covering window list starts at its left endpoint. -/
lemma covers_head : ∀ (l : List (Nat × Nat)) (s tp : Nat), coversFrom s tp l = true →
    (l.map Prod.fst).head? = some s := by
  intro l s tp h
  cases l with
  | nil => simp [coversFrom] at h
  | cons p rest =>
    obtain ⟨a, b⟩ := p
    cases rest with
    | nil =>
      simp only [coversFrom, Bool.and_eq_true, beq_iff_eq] at h
      simp [h.1.1]
    | cons q t =>
      simp only [coversFrom, Bool.and_eq_true, beq_iff_eq] at h
      simp [h.1.1.1]

/-- Helper: a covering window list is chained — each window ends right before
the next begins. -/
lemma covers_chain : ∀ (l : List (Nat × Nat)) (s tp : Nat), coversFrom s tp l = true →
    List.Chain' (fun p q => p.2 + 1 = q.1) l := by
  intro l
  induction l with
  | nil => intro s tp h; exact List.chain'_nil
  | cons p rest ih =>
    intro s tp h
    obtain ⟨a, b⟩ := p
    cases rest with
    | nil => exact List.chain'_singleton _
    | cons q t =>
      simp only [coversFrom, Bool.and_eq_true, beq_iff_eq, decide_eq_true_eq] at h
      have hq := covers_head (q :: t) (b + 1) tp h.2
      have hq1 : q.1 = b + 1 := by
        simpa using hq
      rw [List.chain'_cons]
      exact ⟨by simpa using hq1.symm, ih (b + 1) tp h.2⟩

/-- Helper: a covering window list ends at the right endpoint. -/
lemma covers_last : ∀ (l : List (Nat × Nat)) (s tp : Nat), coversFrom s tp l = true →
    (l.map Prod.snd).getLast? = some tp := by
  intro l
  induction l with
  | nil => intro s tp h; simp [coversFrom] at h
  | cons p rest ih =>
    intro s tp h
    obtain ⟨a, b⟩ := p
    cases rest with
    | nil =>
      simp only [coversFrom, Bool.and_eq_true, beq_iff_eq] at h
      simp [h.2]
    | cons q t =>
      simp only [coversFrom, Bool.and_eq_true, beq_iff_eq, decide_eq_true_eq] at h
      have := ih (b + 1) tp h.2
      simpa [List.getLast?_cons_cons] using this

/-- Helper: a covering window list covers each page of s..tp exactly once and
in order. -/
lemma covers_pages : ∀ (l : List (Nat × Nat)) (s tp : Nat), coversFrom s tp l = true →
    pagesOf l = List.range' s (tp + 1 - s) := by
  intro l
  induction l with
  | nil => intro s tp h; simp [coversFrom] at h
  | cons p rest ih =>
    intro s tp h
    obtain ⟨a, b⟩ := p
    cases rest with
    | nil =>
      simp only [coversFrom, Bool.and_eq_true, beq_iff_eq, decide_eq_true_eq] at h
      obtain ⟨⟨ha, hab⟩, hb⟩ := h
      subst ha; subst hb
      simp [pagesOf]
    | cons q t =>
      simp only [coversFrom, Bool.and_eq_true, beq_iff_eq, decide_eq_true_eq] at h
      obtain ⟨⟨⟨ha, hab⟩, hbt⟩, hrest⟩ := h
      subst ha
      have hih := ih (b + 1) tp hrest
      show List.range' a (b + 1 - a) ++ pagesOf (q :: t) = List.range' a (tp + 1 - a)
      rw [hih]
      have e1 : b + 1 = a + (b + 1 - a) := by omega
      rw [show List.range' (b + 1) (tp + 1 - (b + 1))
          = List.range' (a + (b + 1 - a)) (tp + 1 - (b + 1)) from by rw [← e1]]
      rw [range'_app]
      congr 1
      omega

/-- Unfolding of the chunk loop: one more window while the start is in
range. -/
lemma chunkRangesAux_cons (c tp s : Nat) (hc : 0 < c) (hs : s ≤ tp) :
    chunkRangesAux c tp s = (s, min (s + c - 1) tp) :: chunkRangesAux c tp (s + c) := by
  rw [chunkRangesAux, dif_pos ⟨hc, hs⟩]

/-- Unfolding of the chunk loop: no window once the start passes the page
count. -/
lemma chunkRangesAux_nil (c tp s : Nat) (hs : tp < s) :
    chunkRangesAux c tp s = [] := by
  rw [chunkRangesAux, dif_neg (by omega)]

/-- The chunk loop windows cover s..tp contiguously and exhaustively. -/
lemma chunkRangesAux_covers (c tp : Nat) (hc : 0 < c) :
    ∀ fuel s, tp + 1 - s ≤ fuel → s ≤ tp →
      coversFrom s tp (chunkRangesAux c tp s) = true := by
  intro fuel
  induction fuel with
  | zero => intro s h1 h2; omega
  | succ k ih =>
    intro s h1 h2
    rw [chunkRangesAux_cons c tp s hc h2]
    by_cases hsc : s + c ≤ tp
    · have hrest := ih (s + c) (by omega) hsc
      rw [chunkRangesAux_cons c tp (s + c) hc hsc] at hrest ⊢
      rw [show min (s + c - 1) tp = s + c - 1 from by omega]
      simp only [coversFrom, Bool.and_eq_true, beq_iff_eq, decide_eq_true_eq]
      refine ⟨⟨⟨trivial, by omega⟩, by omega⟩, ?_⟩
      rw [show s + c - 1 + 1 = s + c from by omega]
      exact hrest
    · rw [chunkRangesAux_nil c tp (s + c) (by omega)]
      simp only [coversFrom, Bool.and_eq_true, beq_iff_eq, decide_eq_true_eq]
      exact ⟨⟨trivial, by omega⟩, by omega⟩

/-- Closed form of the i-th window of the chunk loop. -/
lemma chunkRangesAux_getElem (c tp : Nat) (hc : 0 < c) :
    ∀ (i s : Nat), (chunkRangesAux c tp s)[i]?
      = if s + i * c ≤ tp then some (s + i * c, min (s + i * c + c - 1) tp) else none := by
  intro i
  induction i with
  | zero =>
    intro s
    by_cases hs : s ≤ tp
    · rw [chunkRangesAux_cons c tp s hc hs]
      rw [if_pos (by omega)]
      simp
    · rw [chunkRangesAux_nil c tp s (by omega)]
      rw [if_neg (by omega)]
      rfl
  | succ i ih =>
    intro s
    by_cases hs : s ≤ tp
    · rw [chunkRangesAux_cons c tp s hc hs]
      rw [List.getElem?_cons_succ]
      rw [ih (s + c)]
      have e1 : s + c + i * c = s + (i + 1) * c := by ring
      rw [e1]
    · rw [chunkRangesAux_nil c tp s (by omega)]
      rw [List.getElem?_nil]
      have hgt : ¬ (s + (i + 1) * c ≤ tp) := by
        have : 0 ≤ (i + 1) * c := Nat.zero_le _
        omega
      rw [if_neg hgt]

/-- A position indexes a window of the plan exactly when its start page is in
range. -/
lemma chunkRanges_length_iff (c tp : Nat) (hc : 0 < c) (i : Nat) :
    i < (chunkRanges c tp).length ↔ 1 + i * c ≤ tp := by
  unfold chunkRanges
  constructor
  · intro hi
    have h1 := chunkRangesAux_getElem c tp hc i 1
    by_contra hgt
    rw [if_neg hgt, List.getElem?_eq_none_iff] at h1
    omega
  · intro hle
    have h1 := chunkRangesAux_getElem c tp hc i 1
    rw [if_pos hle] at h1
    obtain ⟨hlt, -⟩ := List.getElem?_eq_some_iff.mp h1
    exact hlt

/-- The index-arithmetic bounds the handler writes into its response agree
window for window with the page loop of readPDFTextChunked. -/
lemma handlerChunkBounds_eq (c tp : Nat) (hc : 0 < c) :
    handlerChunkBounds c tp = chunkRanges c tp := by
  apply List.ext_getElem?
  intro i
  rw [handlerChunkBounds, List.getElem?_map]
  rw [show (chunkRanges c tp)[i]?
      = if 1 + i * c ≤ tp then some (1 + i * c, min (1 + i * c + c - 1) tp) else none from
    chunkRangesAux_getElem c tp hc i 1]
  by_cases hi : 1 + i * c ≤ tp
  · rw [if_pos hi]
    have hlen : i < (chunkRanges c tp).length := (chunkRanges_length_iff c tp hc i).mpr hi
    rw [List.getElem?_range hlen]
    rw [Option.map_some']
    congr 1
    have e1 : 1 + i * c = i * c + 1 := by omega
    rw [e1]
    have e2 : i * c + 1 + c - 1 = (i + 1) * c := by
      have h3 : (i + 1) * c = i * c + c := by ring
      omega
    rw [e2]
  · rw [if_neg hi]
    have hlen : ¬ i < (chunkRanges c tp).length := fun hlt =>
      hi ((chunkRanges_length_iff c tp hc i).mp hlt)
    rw [List.getElem?_eq_none (by simpa using Nat.le_of_not_lt hlen)]
    rfl

/-- In an environment where every attempted chunk size is over budget or
errors, the handler loop never leaves its running state, whatever the fuel:
the halving step never takes a positive chunk size to zero. -/
lemma loop_none_of_over (env : ChunkReadEnv)
    (hov : ∀ k len, env.attempt k = some len → fitsBudget len = false) :
    ∀ fuel (c : Int), 0 < c → readPdfTextChunkedLoop env fuel c = none := by
  intro fuel
  induction fuel with
  | zero => intro c hc; rfl
  | succ k ih =>
    intro c hc
    have hstep : (0 : Int) < chunkedNext c := by unfold chunkedNext; omega
    rw [readPdfTextChunkedLoop, if_pos hc]
    cases hat : env.attempt c.toNat with
    | none => exact ih _ hstep
    | some len =>
      show (if fitsBudget len = true then some (ChunkedOutcome.plan c.toNat)
            else readPdfTextChunkedLoop env k (chunkedNext c)) = none
      rw [hov _ _ hat]
      simpa using ih _ hstep

/-- Deleting every file of a list that subsumes a directory empties the
directory. -/
lemma unlinkAll_eq_nil (files : List String) :
    ∀ dir : List String, (∀ g, g ∈ dir → g ∈ files) → unlinkAll files dir = [] := by
  induction files with
  | nil =>
    intro dir h
    have : dir = [] := List.eq_nil_iff_forall_not_mem.mpr (fun a ha => (List.not_mem_nil a) (h a ha))
    simp [this, unlinkAll]
  | cons f fs ih =>
    intro dir h
    show unlinkAll fs (dir.filter (fun g => g != f)) = []
    apply ih
    intro g hg
    rw [List.mem_filter] at hg
    have hne : g ≠ f := by simpa using hg.2
    rcases List.mem_cons.mp (h g hg.1) with h1 | h1
    · exact absurd h1 hne
    · exact h1

/-- A downloadPDF call against a non-paywalled URL performs exactly one fetch
and never consults the resolver, whichever way the fetch goes. -/
lemma downloadPDF_nonpaywalled_counts (env : AcqEnv) (fuel : Nat) (url : String)
    (fname : Option String) (r : AcqResult)
    (hpay : isPaywalledSource url = false)
    (h : downloadPDF env fuel url fname = some r) :
    r.fetches = 1 ∧ r.resolves = 0 := by
  cases fuel with
  | zero => exact absurd h (by simp [downloadPDF])
  | succ k =>
    cases hf : env.fetch url with
    | ok u =>
      simp only [downloadPDF, hf, Option.some.injEq] at h
      subst h
      exact ⟨rfl, rfl⟩
    | error m =>
      simp only [downloadPDF, hf, hpay, Bool.false_eq_true, if_false, Option.some.injEq] at h
      subst h
      exact ⟨rfl, rfl⟩

/-- C1: the monotone half of the claim holds — the halving step never
increases the working chunk size — but the termination half fails on the
code: with requested chunk size 2 (initial working size min(2, 2) = 2) in an
environment where every extraction attempt is over budget, the handler loop
is still running after any number of iterations, far past the claimed bound
of ceil(log2 2) + 1 = 2 extraction attempts, because Math.max(1, floor(c/2))
keeps the chunk size at 1 and the loop guard stays true. -/
theorem chunk_search_monotone_but_diverges :
    (∀ c : Int, 1 ≤ c → chunkedNext c ≤ c)
    ∧ (∀ fuel : Nat, readPdfTextChunked overBudgetEnv fuel 2 = none) := by
  constructor
  · intro c hc; unfold chunkedNext; omega
  · intro fuel
    unfold readPdfTextChunked
    exact loop_none_of_over overBudgetEnv
      (fun k len h => by
        simp only [overBudgetEnv, Option.some.injEq] at h
        subst h
        decide) fuel _ (by decide)

/-- C2: when every chunk size down to and including 1 is over the 15000-token
budget, the call does not return the truncated page-one fallback the claim
(and the comment above the fallback code) describes: for every fuel the loop
is still running, so the fallback is unreachable from any positive requested
chunk size and the call never returns at all. -/
theorem single_page_fallback_unreachable :
    ∀ fuel : Nat, readPdfTextChunked overBudgetEnvBig fuel 1 = none := by
  intro fuel
  unfold readPdfTextChunked
  exact loop_none_of_over overBudgetEnvBig
    (fun k len h => by
      simp only [overBudgetEnvBig, Option.some.injEq] at h
      subst h
      decide) fuel _ (by decide)

/-- C3: when the URL matches no paywalled domain and the fetch fails, the
acquisition returns the wrapped failure at once, with exactly one fetch, no
resolver query and no title inference. -/
theorem nonpaywalled_failure_no_fallback (env : AcqEnv) (url : String) (fname : Option String)
    (msg : String) (fuel : Nat)
    (hpay : isPaywalledSource url = false) (hfetch : env.fetch url = .error msg) :
    downloadPDF env (fuel + 1) url fname
      = some ⟨.error ("Failed to download PDF: " ++ msg), 1, 0, 0⟩ := by
  rw [downloadPDF, hfetch]
  show (if isPaywalledSource url = true then _ else _) = _
  rw [hpay]
  simp [wrapDownloadError]

/-- Witness for C3 at a concrete non-paywalled URL and an always-failing
fetch. -/
theorem nonpaywalled_failure_no_fallback_witness :
    isPaywalledSource "https://example.com/paper.pdf" = false
    ∧ downloadPDF nonPaywalledEnv 1 "https://example.com/paper.pdf" none
        = some ⟨.error ("Failed to download PDF: " ++ "HTTP 404"), 1, 0, 0⟩ :=
  ⟨by decide,
   nonpaywalled_failure_no_fallback nonPaywalledEnv "https://example.com/paper.pdf" none
     "HTTP 404" 0 (by decide) rfl⟩

/-- C4 counterexample: in an environment where the resolver answers with a
URL that is itself judged paywalled and whose fetch fails, a single acquire
call completes with three fetches and two resolver invocations — the claimed
bounds of two fetches and one resolver call, and the claim that the
recursion never goes deeper, fail on the code. -/
theorem resolver_invoked_twice_counterexample :
    downloadPDF chainedResolveEnv 3 "https://www.jstor.org/first-hop-title-alpha" none
      = some ⟨.ok "free-copy.pdf", 3, 2, 2⟩
    ∧ isPaywalledSource "https://www.ieee.org/second-hop-title-beta" = true :=
  ⟨rfl, rfl⟩

/-- C4 as amended: whenever every substitute URL the resolver returns is
judged non-paywalled (as genuine arXiv links are), any completed acquire call
performs at most two fetches and at most one resolver invocation; the
recursion can only deepen through a paywalled substitute URL. -/
theorem acquire_bounded_when_resolver_nonpaywalled (env : AcqEnv) (fuel : Nat) (url : String)
    (fname : Option String) (r : AcqResult)
    (hres : ∀ t u, env.resolve t = some u → isPaywalledSource u = false)
    (h : downloadPDF env fuel url fname = some r) :
    r.fetches ≤ 2 ∧ r.resolves ≤ 1 := by
  cases fuel with
  | zero => exact absurd h (by simp [downloadPDF])
  | succ k =>
    cases hf : env.fetch url with
    | ok u =>
      simp only [downloadPDF, hf, Option.some.injEq] at h
      subst h
      exact ⟨by show (1 : Nat) ≤ 2; omega, by show (0 : Nat) ≤ 1; omega⟩
    | error m =>
      by_cases hpay : isPaywalledSource url = true
      · simp only [downloadPDF, hf, hpay, if_true] at h
        cases ht : extractTitleFromUrl env.lib url fname with
        | none =>
          simp only [ht, Option.some.injEq] at h
          subst h
          exact ⟨by show (1 : Nat) ≤ 2; omega, by show (0 : Nat) ≤ 1; omega⟩
        | some title =>
          simp only [ht] at h
          cases hr : env.resolve title with
          | none =>
            simp only [hr, Option.some.injEq] at h
            subst h
            exact ⟨by show (1 : Nat) ≤ 2; omega, by show (1 : Nat) ≤ 1; omega⟩
          | some newUrl =>
            simp only [hr] at h
            cases hin : downloadPDF env k newUrl fname with
            | none => rw [hin] at h; exact absurd h (fun hh => Option.noConfusion hh)
            | some inner =>
              simp only [hin] at h
              obtain ⟨hc1, hc2⟩ :=
                downloadPDF_nonpaywalled_counts env k newUrl fname inner (hres _ _ hr) hin
              cases ho : inner.outcome with
              | ok fp =>
                simp only [ho, Option.some.injEq] at h
                subst h
                exact ⟨by show inner.fetches + 1 ≤ 2; omega, by show inner.resolves + 1 ≤ 1; omega⟩
              | error e =>
                simp only [ho, Option.some.injEq] at h
                subst h
                exact ⟨by show inner.fetches + 1 ≤ 2; omega, by show inner.resolves + 1 ≤ 1; omega⟩
      · obtain ⟨hc1, hc2⟩ :=
          downloadPDF_nonpaywalled_counts env (k + 1) url fname r (by simpa using hpay) h
        omega

/-- Witness for the amended C4: a paywalled URL whose fallback resolves to an
arXiv link that downloads, completing with two fetches and one resolver
call. -/
theorem acquire_bounded_witness :
    ((⟨.ok "1234.5678.pdf", 2, 1, 1⟩ : AcqResult).fetches ≤ 2
      ∧ (⟨.ok "1234.5678.pdf", 2, 1, 1⟩ : AcqResult).resolves ≤ 1) :=
  acquire_bounded_when_resolver_nonpaywalled boundedResolveEnv 2
    "https://www.jstor.org/a-sufficiently-long-title" none ⟨.ok "1234.5678.pdf", 2, 1, 1⟩
    (fun t u hu => by
      simp only [boundedResolveEnv, Option.some.injEq] at hu
      subst hu
      decide)
    rfl

/-- C5: for every chunk size and page count at least 1, the window list of a
successful chunked plan — both as the extraction loop builds it and as the
handler rewrites it from chunk indices — starts at page 1, chains each
window's end page plus one into the next window's start page, ends at the
total page count, and covers the pages 1..totalPages exactly once each, in
order. -/
theorem chunked_plan_partition (c tp : Nat) (hc : 1 ≤ c) (htp : 1 ≤ tp) :
    handlerChunkBounds c tp = chunkRanges c tp
    ∧ ((handlerChunkBounds c tp).map Prod.fst).head? = some 1
    ∧ List.Chain' (fun p q => p.2 + 1 = q.1) (handlerChunkBounds c tp)
    ∧ ((handlerChunkBounds c tp).map Prod.snd).getLast? = some tp
    ∧ pagesOf (handlerChunkBounds c tp) = List.range' 1 tp := by
  have hcov : coversFrom 1 tp (chunkRanges c tp) = true :=
    chunkRangesAux_covers c tp hc (tp + 1) 1 (by omega) htp
  have heq := handlerChunkBounds_eq c tp hc
  rw [heq]
  refine ⟨rfl, covers_head _ 1 tp hcov, covers_chain _ 1 tp hcov, covers_last _ 1 tp hcov, ?_⟩
  have hp := covers_pages _ 1 tp hcov
  rw [show tp + 1 - 1 = tp from by omega] at hp
  exact hp

/-- Witness for C5 on a 7-page document read with chunk size 3: windows
(1,3), (4,6), (7,7). -/
theorem chunked_plan_partition_witness :
    handlerChunkBounds 3 7 = chunkRanges 3 7
    ∧ ((handlerChunkBounds 3 7).map Prod.fst).head? = some 1
    ∧ List.Chain' (fun p q => p.2 + 1 = q.1) (handlerChunkBounds 3 7)
    ∧ ((handlerChunkBounds 3 7).map Prod.snd).getLast? = some 7
    ∧ pagesOf (handlerChunkBounds 3 7) = List.range' 1 7 :=
  chunked_plan_partition 3 7 (by decide) (by decide)

/-- C6 counterexample: with no caller filename, a two-character q parameter
is accepted as the title even though its length does not exceed 10 and it is
not the path-segment candidate (which here contains a period, so under the
claim no candidate would qualify and no title would be returned). -/
theorem short_query_param_accepted :
    extractTitleFromUrl shortQueryLib "https://www.sciencedirect.com/s.x?q=ab" none = some "ab"
    ∧ ¬ (10 < "ab".length)
    ∧ (lastPathSegment "https://www.sciencedirect.com/s.x?q=ab").contains '.' = true :=
  ⟨rfl, by decide, rfl⟩

/-- C6 as amended: title inference equals the candidate-priority function in
which the filename candidate needs its cleaned form over 10 characters, a
query-parameter candidate is accepted whenever present and nonempty with no
length threshold, and the path-segment candidate needs to be nonempty, over
10 characters and period-free. -/
theorem extract_title_priority_amended (lib : UrlLib) (url : String) (filename : Option String) :
    extractTitleFromUrl lib url filename = extractTitleSpec lib url filename := by
  have hrest : extractTitleRest lib url
      = ((if lib.parseOk url then (jsOrParams lib url).map (fun v => lib.decode v) else none).orElse
          (fun _ =>
            if !(lastPathSegment url).isEmpty && decide (10 < (lastPathSegment url).length)
                && !(lastPathSegment url).contains '.' then
              some (String.mk (dashUnderToSpace (lastPathSegment url)))
            else none)) := by
    unfold extractTitleRest
    by_cases hp : lib.parseOk url = true
    · rw [if_pos hp, if_pos hp]
      cases jsOrParams lib url with
      | none => simp [Option.orElse]
      | some v => simp [Option.orElse]
    · rw [if_neg hp, if_neg hp]
      simp [Option.orElse]
  cases filename with
  | none =>
    unfold extractTitleFromUrl extractTitleSpec
    simpa [Option.orElse] using hrest
  | some f =>
    unfold extractTitleFromUrl extractTitleSpec
    by_cases hc : 10 < (cleanFilenameOf f).length
    · simp [hc, Option.orElse]
    · simpa [hc, Option.orElse] using hrest

/-- C7: for the canonical arXiv URL with no caller filename, the stored name
is the bare id with a pdf extension, not the aggregator-prefixed name the
claim derives — the source tests the final path segment, not the URL, for
the aggregator marker, even though the URL itself carries it (third
conjunct) and the id extraction itself would succeed (fourth conjunct). -/
theorem arxiv_url_filename_not_special :
    deriveFilename 0 "https://arxiv.org/pdf/1706.03762" none = "1706.03762.pdf"
    ∧ deriveFilename 0 "https://arxiv.org/pdf/1706.03762" none ≠ "arxiv_1706.03762.pdf"
    ∧ strIncludes "https://arxiv.org/pdf/1706.03762" "arxiv.org" = true
    ∧ arxivIdOf "https://arxiv.org/pdf/1706.03762" = "1706.03762" := by
  refine ⟨rfl, by decide, rfl, rfl⟩

/-- C8: a missing file yields the wrapped not-found error without invoking
the extraction tool; with the file present, an erroring tool degrades to the
placeholder text rather than an error, and the window passed to the tool is
the full document when both bounds are omitted and start-to-document-end
when only the start page is given. -/
theorem read_pdf_text_contract (env : ExtractEnv) (filepath : String)
    (startPage endPage : Option Nat) :
    (env.fileExists = false →
      readPDFText env filepath startPage endPage
        = ⟨.error ("Failed to read PDF: PDF file not found: " ++ filepath), none⟩)
    ∧ (env.fileExists = true → ∀ e, env.run (pdftotextWindow startPage endPage) = .error e →
        (readPDFText env filepath startPage endPage).result = .ok extractionUnavailableText)
    ∧ (env.fileExists = true →
        (readPDFText env filepath startPage endPage).window
          = some (pdftotextWindow startPage endPage))
    ∧ pdftotextWindow none none = (none, none)
    ∧ (∀ s : Nat, pdftotextWindow (some s) none = (some s, none)) := by
  refine ⟨?_, ?_, ?_, rfl, fun s => rfl⟩
  · intro h; rw [readPDFText, h]; rfl
  · intro h e herr
    rw [readPDFText, h, if_pos rfl, herr]
  · intro h
    rw [readPDFText, h, if_pos rfl]
    cases env.run (pdftotextWindow startPage endPage) <;> rfl

/-- C9 counterexample: the cleanup handler's reported result is identical for
a three-file directory and an empty one, and neither its message nor its
action mentions the count, so the result cannot contain the deleted count
the claim requires. -/
theorem cleanup_report_lacks_count :
    cleanupHandlerResponse ["a.pdf", "b.pdf", "c.pdf"] = cleanupHandlerResponse []
    ∧ strIncludes (cleanupHandlerResponse ["a.pdf", "b.pdf", "c.pdf"]).message "3" = false
    ∧ strIncludes (cleanupHandlerResponse ["a.pdf", "b.pdf", "c.pdf"]).action "3" = false :=
  ⟨rfl, by decide, by decide⟩

/-- C9 as amended: cleanup deletes every file of the directory, the count it
logs to the console equals the number of files, a subsequent artifact
listing is empty, and the handler's reported result is the fixed
action-and-message object carrying no count. -/
theorem cleanup_removes_all_amended (dir : List String) :
    (cleanupDownloads dir).1 = []
    ∧ (cleanupDownloads dir).2 = dir.length
    ∧ listDownloadedPDFs (cleanupDownloads dir).1 = []
    ∧ cleanupHandlerResponse dir
        = ⟨"cleanup_downloads", "All downloaded PDFs have been cleaned up"⟩ := by
  have hnil : unlinkAll dir dir = [] := unlinkAll_eq_nil dir dir (fun g hg => hg)
  refine ⟨hnil, rfl, ?_, rfl⟩
  rw [show (cleanupDownloads dir).1 = unlinkAll dir dir from rfl, hnil]
  rfl

/-- C10: with a nonpositive requested chunk size the working size
min(requested, 2) is nonpositive, the loop guard fails at once whatever the
attempt outcomes, and the call returns the single-page fallback: page one
truncated to 80000 characters, the truncated flag exactly when the page
exceeds 80000 characters, and the text returned whole when it fits. -/
theorem nonpositive_chunk_size_fallback (env : ChunkReadEnv) (req : Int) (fuel : Nat)
    (hreq : req ≤ 0) (hfuel : 1 ≤ fuel) :
    readPdfTextChunked env fuel req
      = some (.fallbackPage (env.pageOne.take 80000) (decide (80000 < env.pageOne.length)))
    ∧ (env.pageOne.take 80000).length ≤ 80000
    ∧ (env.pageOne.length ≤ 80000 → env.pageOne.take 80000 = env.pageOne) := by
  refine ⟨?_, ?_, ?_⟩
  · obtain ⟨k, rfl⟩ : ∃ k, fuel = k + 1 := ⟨fuel - 1, by omega⟩
    unfold readPdfTextChunked
    have hmin : min req 2 = req := min_eq_left (by omega)
    rw [hmin, readPdfTextChunkedLoop, if_neg (by omega)]
  · simp [List.length_take]
  · intro h; exact List.take_of_length_le h

/-- Witness for C10 with requested chunk size 0, one unit of fuel and a
one-character first page. -/
theorem nonpositive_chunk_size_fallback_witness :
    ((0 : Int) ≤ 0 ∧ (1 : Nat) ≤ 1)
    ∧ (readPdfTextChunked fallbackWitnessEnv 1 0
        = some (.fallbackPage (fallbackWitnessEnv.pageOne.take 80000)
            (decide (80000 < fallbackWitnessEnv.pageOne.length)))
      ∧ (fallbackWitnessEnv.pageOne.take 80000).length ≤ 80000
      ∧ (fallbackWitnessEnv.pageOne.length ≤ 80000 →
          fallbackWitnessEnv.pageOne.take 80000 = fallbackWitnessEnv.pageOne)) :=
  ⟨⟨le_refl 0, le_refl 1⟩,
   nonpositive_chunk_size_fallback fallbackWitnessEnv 0 1 (by decide) (by decide)⟩
